import Mathlib

/-!
Verification of the per-client token-bucket rate limiter of the
ip-geolocation-service repository (internal/middleware/rate_limiter.go).

The Go code is shallowly embedded: the `RateLimiter` struct becomes a Lean
structure whose two maps (`tokens`, `lastUpdate`) are modelled as functions
`String → Option _`; Go `time.Time` values are modelled as nanosecond
counts (`Nat`), and `time.Duration` values as nanosecond counts as well.
`timeElapsed.Seconds() * float64(rate)` truncated to `int` is modelled as
truncated integer division of `elapsedNanoseconds * rate` by `10^9`
(`Int.tdiv`), exactly the floor of `elapsedSeconds * rate` on the
non-negative domain.  Each `Allow` call receives the value of
`time.Now()` as an explicit `now` argument.
-/

namespace IPGeo

/-- Nanoseconds in one second: the divisor implicit in
`timeElapsed.Seconds()`. -/
def NANOS : Nat := 1000000000

/-- Embedding of the Go struct `RateLimiter`.  The two maps are functions
to `Option`, `none` meaning the key is absent. -/
structure RateLimiter where
  requestsPerSecond : Int
  burstSize : Int
  tokens : String → Option Int
  lastUpdate : String → Option Nat
  cleanupInterval : Nat
  inactiveThreshold : Nat
  lastCleanup : Nat

/-- Embedding of `NewRateLimiter`: zero durations are replaced by the
defaults (1 minute, 5 minutes); the maps start empty; `lastCleanup` starts
at the zero time.  The unused `windowSize` parameter of the Go constructor
is kept. -/
def NewRateLimiter (requestsPerSecond burstSize : Int)
    (windowSize cleanupInterval inactiveThreshold : Nat) : RateLimiter :=
  let _ := windowSize
  let cleanupInterval := if cleanupInterval = 0 then 60 * NANOS else cleanupInterval
  let inactiveThreshold := if inactiveThreshold = 0 then 300 * NANOS else inactiveThreshold
  { requestsPerSecond := requestsPerSecond
    burstSize := burstSize
    tokens := fun _ => none
    lastUpdate := fun _ => none
    cleanupInterval := cleanupInterval
    inactiveThreshold := inactiveThreshold
    lastCleanup := 0 }

/-- Embedding of `calculateCurrentTokens`: lazy refill of
`int(elapsedSeconds * rate)` tokens, capped at `burstSize` and floored at
0 (in that order, as in the source).  A missing `lastUpdate` entry yields
0; a missing `tokens` entry reads as the zero value. -/
def RateLimiter.calculateCurrentTokens (rl : RateLimiter) (clientID : String)
    (now : Nat) : Int :=
  match rl.lastUpdate clientID with
  | none => 0
  | some lastUpdateTime =>
    let timeElapsed : Int := (now : Int) - (lastUpdateTime : Int)
    let tokensToAdd : Int := (timeElapsed * rl.requestsPerSecond).tdiv (NANOS : Int)
    let currentTokens := (rl.tokens clientID).getD 0 + tokensToAdd
    let currentTokens := if currentTokens > rl.burstSize then rl.burstSize else currentTokens
    if currentTokens < 0 then 0 else currentTokens

/-- Embedding of `cleanup`: every key whose `lastUpdate` is before
`now - inactiveThreshold` is deleted from both maps. -/
def RateLimiter.cleanup (rl : RateLimiter) (now : Nat) : RateLimiter :=
  { rl with
    tokens := fun k =>
      match rl.lastUpdate k with
      | some lu => if (lu : Int) < (now : Int) - (rl.inactiveThreshold : Int) then none
                   else rl.tokens k
      | none => rl.tokens k
    lastUpdate := fun k =>
      match rl.lastUpdate k with
      | some lu => if (lu : Int) < (now : Int) - (rl.inactiveThreshold : Int) then none
                   else some lu
      | none => none }

/-- Writing `rl.tokens[clientID] = v; rl.lastUpdate[clientID] = t`. -/
def RateLimiter.setClient (rl : RateLimiter) (clientID : String) (v : Int)
    (t : Nat) : RateLimiter :=
  { rl with
    tokens := fun k => if k = clientID then some v else rl.tokens k
    lastUpdate := fun k => if k = clientID then some t else rl.lastUpdate k }

/-- Writing `rl.tokens[clientID] = v` alone (the decrement step). -/
def RateLimiter.setTokens (rl : RateLimiter) (clientID : String) (v : Int) : RateLimiter :=
  { rl with tokens := fun k => if k = clientID then some v else rl.tokens k }

/-- The tail of `Allow` common to all branches: recompute the token count,
store it together with `lastUpdate = now`, then consume one token if any
is available. -/
def RateLimiter.finishAllow (rl : RateLimiter) (clientID : String) (now : Nat) :
    Bool × RateLimiter :=
  let cur := rl.calculateCurrentTokens clientID now
  let rl2 := rl.setClient clientID cur now
  if 0 < cur then (true, rl2.setTokens clientID (cur - 1)) else (false, rl2)

/-- The periodic-cleanup prologue of `Allow`: run the eviction sweep and
record `lastCleanup = now` when more than `cleanupInterval` has passed
since the previous sweep. -/
def RateLimiter.cleanupStep (rl : RateLimiter) (now : Nat) : RateLimiter :=
  if (now : Int) - (rl.lastCleanup : Int) > (rl.cleanupInterval : Int) then
    { rl.cleanup now with lastCleanup := now } else rl

/-- Embedding of `Allow`: piggybacked cleanup, creation of unseen keys
(denied outright when the rate is 0), reactivation-reset of idle keys,
lazy refill and token consumption. -/
def RateLimiter.Allow (rl : RateLimiter) (clientID : String) (now : Nat) :
    Bool × RateLimiter :=
  let rl1 := rl.cleanupStep now
  match rl1.tokens clientID with
  | none =>
    if rl1.requestsPerSecond = 0 then (false, rl1)
    else (rl1.setClient clientID rl1.burstSize now).finishAllow clientID now
  | some _ =>
    if (now : Int) - (((rl1.lastUpdate clientID).getD 0 : Nat) : Int)
        > (rl1.inactiveThreshold : Int) then
      (rl1.setClient clientID rl1.burstSize now).finishAllow clientID now
    else rl1.finishAllow clientID now

/-- Per-client view of `GetMapState` (the snapshot): for a tracked key
(present in both maps) it reports the would-be current token count, the
nanoseconds since the last update and the `is_active` flag; untracked
keys are absent. -/
def RateLimiter.GetMapState (rl : RateLimiter) (now : Nat) (clientID : String) :
    Option (Int × Int × Bool) :=
  match rl.tokens clientID, rl.lastUpdate clientID with
  | some _, some lu =>
    let timeSince : Int := (now : Int) - (lu : Int)
    some (rl.calculateCurrentTokens clientID now, timeSince,
      decide (timeSince < (rl.inactiveThreshold : Int)))
  | _, _ => none

/-- Run a sequence of `Allow` calls, each given as a key together with the
value of `time.Now()` observed by that call; returns the list of
admission results and the final store. -/
def RateLimiter.runAllows (rl : RateLimiter) :
    List (String × Nat) → List Bool × RateLimiter
  | [] => ([], rl)
  | p :: ps =>
    let r := rl.Allow p.1 p.2
    let rest := r.2.runAllows ps
    (r.1 :: rest.1, rest.2)

/-- The store after a sequence of `Allow` calls. -/
def RateLimiter.runState (rl : RateLimiter) (calls : List (String × Nat)) : RateLimiter :=
  (rl.runAllows calls).2

/-- Poll one key repeatedly: each entry of `gaps` is the elapsed time (ns)
between the previous call (or the start instant `t`) and the next `Allow`
call; returns the admission results. -/
def RateLimiter.pollRun (rl : RateLimiter) (c : String) (t : Nat) :
    List Nat → List Bool
  | [] => []
  | g :: gs =>
    let r := rl.Allow c (t + g)
    r.1 :: r.2.pollRun c (t + g) gs

/-! ### Client identity resolution (`GetClientID`)

Go strings are modelled as `List Char`; the inputs are the `X-Real-IP`
header value, the `X-Forwarded-For` header value and `r.RemoteAddr` (a
missing header reads as the empty string). -/

/-- Embedding of `strings.TrimSpace`. -/
def trimSpace (s : List Char) : List Char :=
  ((s.dropWhile Char.isWhitespace).reverse.dropWhile Char.isWhitespace).reverse

/-- Embedding of `strings.Index` restricted to a one-character needle:
index of the first occurrence, `none` when absent (Go returns -1). -/
def firstIdxOf (c : Char) : List Char → Option Nat
  | [] => none
  | x :: xs => if x = c then some 0 else (firstIdxOf c xs).map (· + 1)

/-- Embedding of `strings.LastIndex` restricted to a one-character needle. -/
def lastIdxOf (c : Char) : List Char → Option Nat
  | [] => none
  | x :: xs =>
    match lastIdxOf c xs with
    | some i => some (i + 1)
    | none => if x = c then some 0 else none

/-- Embedding of `GetClientID`: trusted `X-Real-IP` verbatim, else the
part of `X-Forwarded-For` before the first comma when that comma sits at
a positive index (trimmed; otherwise the whole trimmed value), else the
remote address — replaced by the literal string `unknown` when empty —
with everything from its rightmost colon on stripped when that colon sits
at a positive index. -/
def GetClientID (realIP forwardedFor remoteAddr : List Char) : List Char :=
  if realIP ≠ [] then realIP
  else if forwardedFor ≠ [] then
    match firstIdxOf ',' forwardedFor with
    | some commaIdx =>
      if 0 < commaIdx then trimSpace (forwardedFor.take commaIdx)
      else trimSpace forwardedFor
    | none => trimSpace forwardedFor
  else
    let clientID := if remoteAddr = [] then "unknown".toList else remoteAddr
    match lastIdxOf ':' clientID with
    | some colonIdx => if 0 < colonIdx then clientID.take colonIdx else clientID
    | none => clientID

/-- The pre-decrement token count produced by the source's reactivation
path: the bucket is reset to full burst with `lastUpdate = now` and then
recomputed by `calculateCurrentTokens` (rate_limiter.go lines 90-97). -/
def RateLimiter.resetThenRecompute (rl : RateLimiter) (c : String) (now : Nat) : Int :=
  (rl.setClient c rl.burstSize now).calculateCurrentTokens c now

/-- The spec's capped lazy refill, written from the spec's words
(section 4.2 step 5): `clamp(tokens + floor(elapsedSeconds * rate), 0,
burstCapacity)`.  The spec claims this coincides with the reactivation
reset. -/
def specLazyRefill (tokens : Int) (elapsedNs : Nat) (rate burst : Int) : Int :=
  max 0 (min (tokens + ((elapsedNs : Int) * rate).fdiv ((NANOS : Nat) : Int)) burst)

/-- Key `b` is tracked consistently: present in both maps or in neither
(true of every reachable store, for every key). -/
def SyncB (b : String) (rl : RateLimiter) : Prop :=
  rl.tokens b = none ↔ rl.lastUpdate b = none

/-- Simulation relation for the independence argument: at any instant
`≥ s`, two stores are indistinguishable to key `b` when they agree on
`b`'s bucket, or when one has already evicted a bucket that the other
still holds but that has been idle beyond the threshold since before `s`
(the reactivation reset makes the two cases behave identically). -/
def BRel (b : String) (s : Nat) (rl1 rl2 : RateLimiter) : Prop :=
  (rl1.tokens b = rl2.tokens b ∧ rl1.lastUpdate b = rl2.lastUpdate b)
  ∨ (rl1.tokens b = none ∧ rl1.lastUpdate b = none ∧
     ∃ v lu, rl2.tokens b = some v ∧ rl2.lastUpdate b = some lu ∧
       (s : Int) - (lu : Int) > (rl2.inactiveThreshold : Int))
  ∨ (rl2.tokens b = none ∧ rl2.lastUpdate b = none ∧
     ∃ v lu, rl1.tokens b = some v ∧ rl1.lastUpdate b = some lu ∧
       (s : Int) - (lu : Int) > (rl1.inactiveThreshold : Int))

/-- The per-bucket range invariant of the store: every stored token count
lies in `[0, burstCapacity]`. -/
def BucketsInv (rl : RateLimiter) : Prop :=
  ∀ k v, rl.tokens k = some v → 0 ≤ v ∧ v ≤ rl.burstSize

/-- The store tracks no key at all (the reachable shape of every store
whose rate is 0). -/
def NoBuckets (rl : RateLimiter) : Prop :=
  ∀ k, rl.tokens k = none ∧ rl.lastUpdate k = none

/-! ### Structural lemmas about the embedding -/

theorem setClient_tokens (rl : RateLimiter) (c : String) (v : Int) (t : Nat) (k : String) :
    (rl.setClient c v t).tokens k = if k = c then some v else rl.tokens k := rfl

theorem setClient_lastUpdate (rl : RateLimiter) (c : String) (v : Int) (t : Nat) (k : String) :
    (rl.setClient c v t).lastUpdate k = if k = c then some t else rl.lastUpdate k := rfl

theorem setTokens_tokens (rl : RateLimiter) (c : String) (v : Int) (k : String) :
    (rl.setTokens c v).tokens k = if k = c then some v else rl.tokens k := rfl

theorem setTokens_lastUpdate (rl : RateLimiter) (c : String) (v : Int) (k : String) :
    (rl.setTokens c v).lastUpdate k = rl.lastUpdate k := rfl

theorem cleanup_tokens (rl : RateLimiter) (now : Nat) (k : String) :
    (rl.cleanup now).tokens k =
      match rl.lastUpdate k with
      | some lu => if (lu : Int) < (now : Int) - (rl.inactiveThreshold : Int) then none
                   else rl.tokens k
      | none => rl.tokens k := rfl

theorem cleanup_lastUpdate (rl : RateLimiter) (now : Nat) (k : String) :
    (rl.cleanup now).lastUpdate k =
      match rl.lastUpdate k with
      | some lu => if (lu : Int) < (now : Int) - (rl.inactiveThreshold : Int) then none
                   else some lu
      | none => none := rfl

/-- The four configuration fields are never written by any operation. -/
theorem cleanupStep_config (rl : RateLimiter) (now : Nat) :
    (rl.cleanupStep now).requestsPerSecond = rl.requestsPerSecond ∧
    (rl.cleanupStep now).burstSize = rl.burstSize ∧
    (rl.cleanupStep now).cleanupInterval = rl.cleanupInterval ∧
    (rl.cleanupStep now).inactiveThreshold = rl.inactiveThreshold := by
  unfold RateLimiter.cleanupStep
  split <;> exact ⟨rfl, rfl, rfl, rfl⟩

theorem finishAllow_config (rl : RateLimiter) (c : String) (now : Nat) :
    ((rl.finishAllow c now).2).requestsPerSecond = rl.requestsPerSecond ∧
    ((rl.finishAllow c now).2).burstSize = rl.burstSize ∧
    ((rl.finishAllow c now).2).cleanupInterval = rl.cleanupInterval ∧
    ((rl.finishAllow c now).2).inactiveThreshold = rl.inactiveThreshold := by
  unfold RateLimiter.finishAllow
  dsimp only
  split <;> exact ⟨rfl, rfl, rfl, rfl⟩

theorem Allow_config (rl : RateLimiter) (c : String) (now : Nat) :
    ((rl.Allow c now).2).requestsPerSecond = rl.requestsPerSecond ∧
    ((rl.Allow c now).2).burstSize = rl.burstSize ∧
    ((rl.Allow c now).2).cleanupInterval = rl.cleanupInterval ∧
    ((rl.Allow c now).2).inactiveThreshold = rl.inactiveThreshold := by
  have hc := cleanupStep_config rl now
  unfold RateLimiter.Allow
  dsimp only
  split
  · split
    · exact hc
    · have hf := finishAllow_config ((rl.cleanupStep now).setClient c (rl.cleanupStep now).burstSize now) c now
      simp only [RateLimiter.setClient] at hf
      exact ⟨hf.1.trans hc.1, hf.2.1.trans hc.2.1, hf.2.2.1.trans hc.2.2.1, hf.2.2.2.trans hc.2.2.2⟩
  · split
    · have hf := finishAllow_config ((rl.cleanupStep now).setClient c (rl.cleanupStep now).burstSize now) c now
      simp only [RateLimiter.setClient] at hf
      exact ⟨hf.1.trans hc.1, hf.2.1.trans hc.2.1, hf.2.2.1.trans hc.2.2.1, hf.2.2.2.trans hc.2.2.2⟩
    · have hf := finishAllow_config (rl.cleanupStep now) c now
      exact ⟨hf.1.trans hc.1, hf.2.1.trans hc.2.1, hf.2.2.1.trans hc.2.2.1, hf.2.2.2.trans hc.2.2.2⟩

theorem calc_of_lastUpdate_none (rl : RateLimiter) (c : String) (now : Nat)
    (h : rl.lastUpdate c = none) : rl.calculateCurrentTokens c now = 0 := by
  unfold RateLimiter.calculateCurrentTokens
  rw [h]

/-- When the stored `lastUpdate` is the current instant, no tokens are
granted and an in-range stored count is returned unchanged. -/
theorem calc_same_time (rl : RateLimiter) (c : String) (now : Nat) (v : Int)
    (htok : rl.tokens c = some v) (hlu : rl.lastUpdate c = some now)
    (h0 : 0 ≤ v) (hB : v ≤ rl.burstSize) :
    rl.calculateCurrentTokens c now = v := by
  unfold RateLimiter.calculateCurrentTokens
  rw [hlu, htok]
  simp only [sub_self, zero_mul, Int.zero_tdiv, Option.getD_some, add_zero]
  rw [if_neg (not_lt.mpr hB), if_neg (not_lt.mpr h0)]

/-- Immediately after `setClient c burstSize now`, the recomputed count is
the clamped burst size. -/
theorem calc_after_reset (rl : RateLimiter) (c : String) (now : Nat) :
    (rl.setClient c rl.burstSize now).calculateCurrentTokens c now =
      if rl.burstSize < 0 then 0 else rl.burstSize := by
  unfold RateLimiter.calculateCurrentTokens
  simp [RateLimiter.setClient, Int.zero_tdiv, lt_self_iff_false]

/-- Closed form of `calculateCurrentTokens` for a tracked key. -/
theorem calc_eval (rl : RateLimiter) (c : String) (now : Nat) (v : Int) (lu : Nat)
    (htok : rl.tokens c = some v) (hlu : rl.lastUpdate c = some lu) :
    rl.calculateCurrentTokens c now =
      if (if v + (((now : Int) - (lu : Int)) * rl.requestsPerSecond).tdiv ((NANOS : Nat) : Int)
            > rl.burstSize
          then rl.burstSize
          else v + (((now : Int) - (lu : Int)) * rl.requestsPerSecond).tdiv ((NANOS : Nat) : Int)) < 0
      then 0
      else (if v + (((now : Int) - (lu : Int)) * rl.requestsPerSecond).tdiv ((NANOS : Nat) : Int)
              > rl.burstSize
            then rl.burstSize
            else v + (((now : Int) - (lu : Int)) * rl.requestsPerSecond).tdiv ((NANOS : Nat) : Int)) := by
  unfold RateLimiter.calculateCurrentTokens
  rw [hlu]
  show (let timeElapsed : Int := (now : Int) - (lu : Int);
        let tokensToAdd : Int := (timeElapsed * rl.requestsPerSecond).tdiv ((NANOS : Nat) : Int);
        let currentTokens := (rl.tokens c).getD 0 + tokensToAdd;
        let currentTokens := if currentTokens > rl.burstSize then rl.burstSize else currentTokens;
        if currentTokens < 0 then 0 else currentTokens) = _
  rw [htok]
  rfl

theorem finishAllow_fst (rl : RateLimiter) (c : String) (now : Nat) :
    (rl.finishAllow c now).1 = decide (0 < rl.calculateCurrentTokens c now) := by
  unfold RateLimiter.finishAllow
  dsimp only
  split
  · simp_all
  · simp_all

theorem finishAllow_tokens_self (rl : RateLimiter) (c : String) (now : Nat) :
    ((rl.finishAllow c now).2).tokens c =
      some (if 0 < rl.calculateCurrentTokens c now
            then rl.calculateCurrentTokens c now - 1
            else rl.calculateCurrentTokens c now) := by
  unfold RateLimiter.finishAllow
  dsimp only
  split <;> simp_all [setTokens_tokens, setClient_tokens]

theorem finishAllow_lastUpdate_self (rl : RateLimiter) (c : String) (now : Nat) :
    ((rl.finishAllow c now).2).lastUpdate c = some now := by
  unfold RateLimiter.finishAllow
  dsimp only
  split <;> simp [setTokens_lastUpdate, setClient_lastUpdate]

theorem finishAllow_tokens_other (rl : RateLimiter) (c : String) (now : Nat)
    (k : String) (hk : k ≠ c) :
    ((rl.finishAllow c now).2).tokens k = rl.tokens k := by
  unfold RateLimiter.finishAllow
  dsimp only
  split <;> simp [setTokens_tokens, setClient_tokens, hk]

theorem finishAllow_lastUpdate_other (rl : RateLimiter) (c : String) (now : Nat)
    (k : String) (hk : k ≠ c) :
    ((rl.finishAllow c now).2).lastUpdate k = rl.lastUpdate k := by
  unfold RateLimiter.finishAllow
  dsimp only
  split <;> simp [setTokens_lastUpdate, setClient_lastUpdate, hk]

/-- The cleanup prologue either leaves a key's two entries unchanged or
deletes both, the latter only when the key was idle beyond the
threshold. -/
theorem cleanupStep_cases (rl : RateLimiter) (now : Nat) (k : String) :
    ((rl.cleanupStep now).tokens k = rl.tokens k ∧
     (rl.cleanupStep now).lastUpdate k = rl.lastUpdate k) ∨
    ((rl.cleanupStep now).tokens k = none ∧
     (rl.cleanupStep now).lastUpdate k = none ∧
     ∃ lu, rl.lastUpdate k = some lu ∧
       (now : Int) - (lu : Int) > (rl.inactiveThreshold : Int)) := by
  unfold RateLimiter.cleanupStep
  split
  · cases hlu : rl.lastUpdate k with
    | none =>
      refine Or.inl ⟨?_, ?_⟩
      · show (rl.cleanup now).tokens k = rl.tokens k
        rw [cleanup_tokens, hlu]
      · show (rl.cleanup now).lastUpdate k = none
        rw [cleanup_lastUpdate, hlu]
    | some lu =>
      by_cases hidle : (lu : Int) < (now : Int) - (rl.inactiveThreshold : Int)
      · refine Or.inr ⟨?_, ?_, lu, rfl, by omega⟩
        · show (rl.cleanup now).tokens k = none
          rw [cleanup_tokens, hlu]
          simp [hidle]
        · show (rl.cleanup now).lastUpdate k = none
          rw [cleanup_lastUpdate, hlu]
          simp [hidle]
      · refine Or.inl ⟨?_, ?_⟩
        · show (rl.cleanup now).tokens k = rl.tokens k
          rw [cleanup_tokens, hlu]
          simp [hidle]
        · show (rl.cleanup now).lastUpdate k = some lu
          rw [cleanup_lastUpdate, hlu]
          simp [hidle]
  · exact Or.inl ⟨rfl, rfl⟩

/-- A key that was updated within the threshold survives the cleanup
prologue untouched. -/
theorem cleanupStep_live (rl : RateLimiter) (now : Nat) (k : String) (lu : Nat)
    (hlu : rl.lastUpdate k = some lu)
    (hlive : ¬ ((now : Int) - (lu : Int) > (rl.inactiveThreshold : Int))) :
    (rl.cleanupStep now).tokens k = rl.tokens k ∧
    (rl.cleanupStep now).lastUpdate k = some lu := by
  rcases cleanupStep_cases rl now k with ⟨h1, h2⟩ | ⟨h1, h2, lu2, hlu2, hidle⟩
  · exact ⟨h1, h2.trans hlu⟩
  · rw [hlu] at hlu2
    cases hlu2
    exact absurd hidle hlive

/-- A key absent from `lastUpdate` keeps both entries through the cleanup
prologue. -/
theorem cleanupStep_absent (rl : RateLimiter) (now : Nat) (k : String)
    (hlu : rl.lastUpdate k = none) :
    (rl.cleanupStep now).tokens k = rl.tokens k ∧
    (rl.cleanupStep now).lastUpdate k = none := by
  rcases cleanupStep_cases rl now k with ⟨h1, h2⟩ | ⟨h1, h2, lu2, hlu2, hidle⟩
  · exact ⟨h1, h2.trans hlu⟩
  · rw [hlu] at hlu2
    cases hlu2

theorem NewRateLimiter_tokens (r b : Int) (w ci it : Nat) (k : String) :
    (NewRateLimiter r b w ci it).tokens k = none := rfl

theorem NewRateLimiter_lastUpdate (r b : Int) (w ci it : Nat) (k : String) :
    (NewRateLimiter r b w ci it).lastUpdate k = none := rfl

theorem NewRateLimiter_requestsPerSecond (r b : Int) (w ci it : Nat) :
    (NewRateLimiter r b w ci it).requestsPerSecond = r := rfl

theorem NewRateLimiter_burstSize (r b : Int) (w ci it : Nat) :
    (NewRateLimiter r b w ci it).burstSize = b := rfl

theorem runAllows_nil (rl : RateLimiter) : rl.runAllows [] = ([], rl) := rfl

theorem runAllows_cons (rl : RateLimiter) (p : String × Nat) (ps : List (String × Nat)) :
    rl.runAllows (p :: ps) =
      (((rl.Allow p.1 p.2).1 :: ((rl.Allow p.1 p.2).2.runAllows ps).1),
        ((rl.Allow p.1 p.2).2.runAllows ps).2) := rfl

/-- `Allow` on a key that is present and not idle reduces to the common
refill-and-consume tail applied to the post-cleanup store. -/
theorem allow_live (rl : RateLimiter) (c : String) (now : Nat) (v : Int) (lu : Nat)
    (htok : rl.tokens c = some v) (hlu : rl.lastUpdate c = some lu)
    (hlive : ¬ ((now : Int) - (lu : Int) > (rl.inactiveThreshold : Int))) :
    rl.Allow c now = (rl.cleanupStep now).finishAllow c now := by
  obtain ⟨ht1, hl1⟩ := cleanupStep_live rl now c lu hlu hlive
  have ht1' : (rl.cleanupStep now).tokens c = some v := ht1.trans htok
  have hth : ((rl.cleanupStep now).inactiveThreshold : Int) = (rl.inactiveThreshold : Int) := by
    rw [(cleanupStep_config rl now).2.2.2]
  unfold RateLimiter.Allow
  dsimp only
  rw [ht1']
  dsimp only
  rw [hl1]
  simp only [Option.getD_some]
  rw [if_neg (by rw [hth]; exact hlive)]

/-- `Allow` at the very instant stored in `lastUpdate`, with an in-range
token count `m`: admitted exactly when `m > 0`, consuming one token. -/
theorem allow_same_time (rl : RateLimiter) (c : String) (t : Nat) (v : Int)
    (htok : rl.tokens c = some v) (hlu : rl.lastUpdate c = some t)
    (h0 : 0 ≤ v) (hB : v ≤ rl.burstSize) :
    (rl.Allow c t).1 = decide (0 < v) ∧
    ((rl.Allow c t).2).tokens c = some (if 0 < v then v - 1 else v) ∧
    ((rl.Allow c t).2).lastUpdate c = some t := by
  have h := allow_live rl c t v t htok hlu (by omega)
  obtain ⟨ht1, hl1⟩ := cleanupStep_live rl t c t hlu (by omega)
  have ht1' : (rl.cleanupStep t).tokens c = some v := ht1.trans htok
  have hcur : (rl.cleanupStep t).calculateCurrentTokens c t = v :=
    calc_same_time _ c t v ht1' hl1 h0 (by rw [(cleanupStep_config rl t).2.1]; exact hB)
  refine ⟨?_, ?_, ?_⟩
  · rw [h, finishAllow_fst, hcur]
  · rw [h, finishAllow_tokens_self, hcur]
  · rw [h]
    exact finishAllow_lastUpdate_self _ c t

/-- `Allow` on a never-seen key with a nonzero rate: a fresh bucket is
created at full burst and one token consumed when possible. -/
theorem allow_fresh (rl : RateLimiter) (c : String) (t : Nat)
    (htok : rl.tokens c = none) (hlu : rl.lastUpdate c = none)
    (hr : rl.requestsPerSecond ≠ 0) :
    (rl.Allow c t).1 = decide (0 < rl.burstSize) ∧
    ((rl.Allow c t).2).tokens c =
      some (if 0 < rl.burstSize then rl.burstSize - 1 else 0) ∧
    ((rl.Allow c t).2).lastUpdate c = some t := by
  obtain ⟨ht1, hl1⟩ := cleanupStep_absent rl t c hlu
  have ht1' : (rl.cleanupStep t).tokens c = none := ht1.trans htok
  have hr1 : ¬ ((rl.cleanupStep t).requestsPerSecond = 0) := by
    rw [(cleanupStep_config rl t).1]; exact hr
  have hB1 : (rl.cleanupStep t).burstSize = rl.burstSize := (cleanupStep_config rl t).2.1
  have hcur := calc_after_reset (rl.cleanupStep t) c t
  unfold RateLimiter.Allow
  dsimp only
  rw [ht1']
  dsimp only
  rw [if_neg hr1]
  refine ⟨?_, ?_, ?_⟩
  · rw [finishAllow_fst, hcur, hB1]
    simp only [decide_eq_decide]
    split <;> omega
  · rw [finishAllow_tokens_self, hcur, hB1]
    congr 1
    split_ifs <;> omega
  · exact finishAllow_lastUpdate_self _ c t

/-- `Allow` on a never-seen key with rate 0: denied without creating any
state for the key. -/
theorem allow_fresh_zero (rl : RateLimiter) (c : String) (t : Nat)
    (htok : rl.tokens c = none) (hlu : rl.lastUpdate c = none)
    (hr : rl.requestsPerSecond = 0) :
    rl.Allow c t = (false, rl.cleanupStep t) := by
  obtain ⟨ht1, hl1⟩ := cleanupStep_absent rl t c hlu
  have ht1' : (rl.cleanupStep t).tokens c = none := ht1.trans htok
  have hr1 : (rl.cleanupStep t).requestsPerSecond = 0 := by
    rw [(cleanupStep_config rl t).1]; exact hr
  unfold RateLimiter.Allow
  dsimp only
  rw [ht1']
  dsimp only
  rw [if_pos hr1]

theorem cleanupStep_noBuckets (rl : RateLimiter) (t : Nat) (h : NoBuckets rl) :
    NoBuckets (rl.cleanupStep t) := fun k => by
  obtain ⟨h1, h2⟩ | ⟨h1, h2, lu, hlu, _⟩ := cleanupStep_cases rl t k
  · exact ⟨h1.trans (h k).1, h2.trans (h k).2⟩
  · exact ⟨h1, h2⟩

/-- A zero-rate store that tracks no key denies every call and keeps
tracking no key. -/
theorem zero_rate_run (calls : List (String × Nat)) :
    ∀ (rl : RateLimiter), rl.requestsPerSecond = 0 → NoBuckets rl →
      (rl.runAllows calls).1 = List.replicate calls.length false ∧
      NoBuckets (rl.runAllows calls).2 := by
  induction calls with
  | nil => intro rl _ h; exact ⟨rfl, h⟩
  | cons p ps ih =>
    intro rl hr h
    have hstep := allow_fresh_zero rl p.1 p.2 (h p.1).1 (h p.1).2 hr
    have hnb : NoBuckets (rl.Allow p.1 p.2).2 := by
      rw [hstep]
      exact cleanupStep_noBuckets rl p.2 h
    have hr2 : ((rl.Allow p.1 p.2).2).requestsPerSecond = 0 :=
      (Allow_config rl p.1 p.2).1.trans hr
    obtain ⟨ihr, ihn⟩ := ih ((rl.Allow p.1 p.2).2) hr2 hnb
    rw [runAllows_cons]
    refine ⟨?_, ihn⟩
    have hfst : (rl.Allow p.1 p.2).1 = false := by rw [hstep]
    rw [show (((rl.Allow p.1 p.2).1 :: (((rl.Allow p.1 p.2).2).runAllows ps).1),
          (((rl.Allow p.1 p.2).2).runAllows ps).2).1
        = (rl.Allow p.1 p.2).1 :: (((rl.Allow p.1 p.2).2).runAllows ps).1 from rfl]
    rw [hfst, ihr, List.length_cons, List.replicate_succ]

/-- Draining a bucket that holds `m ≤ burstSize` tokens by same-instant
calls: the first `m` are admitted, the rest denied. -/
theorem drain_run (c : String) (t : Nat) :
    ∀ (n : Nat) (rl : RateLimiter) (m : Nat),
      rl.tokens c = some (m : Int) → rl.lastUpdate c = some t →
      (m : Int) ≤ rl.burstSize →
      (rl.runAllows (List.replicate n (c, t))).1 =
        List.replicate (min n m) true ++ List.replicate (n - m) false := by
  intro n
  induction n with
  | zero => intro rl m _ _ _; simp [runAllows_nil]
  | succ n ih =>
    intro rl m htok hlu hmB
    obtain ⟨h1, h2, h3⟩ :=
      allow_same_time rl c t (m : Int) htok hlu (by exact_mod_cast Nat.zero_le m) hmB
    have hBnext : ((rl.Allow c t).2).burstSize = rl.burstSize := (Allow_config rl c t).2.1
    rw [List.replicate_succ, runAllows_cons]
    cases m with
    | zero =>
      have hfst : (rl.Allow c t).1 = false := by
        rw [h1]; simp
      have htok2 : ((rl.Allow c t).2).tokens c = some ((0 : Nat) : Int) := by
        rw [h2]; simp
      have hB2 : ((0 : Nat) : Int) ≤ ((rl.Allow c t).2).burstSize := by
        rw [hBnext]; exact_mod_cast hmB
      rw [show ((rl.Allow c t).1 :: (((rl.Allow c t).2).runAllows (List.replicate n (c, t))).1,
            (((rl.Allow c t).2).runAllows (List.replicate n (c, t))).2).1
          = (rl.Allow c t).1 :: (((rl.Allow c t).2).runAllows (List.replicate n (c, t))).1 from rfl]
      rw [ih _ 0 htok2 h3 hB2, hfst]
      simp [List.replicate_succ]
    | succ k =>
      have hfst : (rl.Allow c t).1 = true := by
        rw [h1]
        simp only [decide_eq_true_eq]
        exact_mod_cast Nat.succ_pos k
      have htok2 : ((rl.Allow c t).2).tokens c = some ((k : Nat) : Int) := by
        rw [h2, if_pos (by exact_mod_cast Nat.succ_pos k)]
        congr 1
        push_cast
        ring
      have hB2 : ((k : Nat) : Int) ≤ ((rl.Allow c t).2).burstSize := by
        rw [hBnext]
        have : ((k : Nat) : Int) ≤ ((k + 1 : Nat) : Int) := by exact_mod_cast Nat.le_succ k
        exact this.trans hmB
      rw [show ((rl.Allow c t).1 :: (((rl.Allow c t).2).runAllows (List.replicate n (c, t))).1,
            (((rl.Allow c t).2).runAllows (List.replicate n (c, t))).2).1
          = (rl.Allow c t).1 :: (((rl.Allow c t).2).runAllows (List.replicate n (c, t))).1 from rfl]
      rw [ih _ k htok2 h3 hB2, hfst]
      rw [Nat.succ_min_succ, Nat.succ_sub_succ, List.replicate_succ]
      rfl

/-- From a fresh store with a nonzero rate and burst capacity `B`, any
number `n` of same-instant calls on one key yields exactly
`min n B` admissions followed by denials. -/
theorem fresh_run (rate : Int) (B : Nat) (ws ci it : Nat) (c : String) (t : Nat)
    (hr : rate ≠ 0) (n : Nat) :
    ((NewRateLimiter rate (B : Int) ws ci it).runAllows (List.replicate n (c, t))).1 =
      List.replicate (min n B) true ++ List.replicate (n - B) false := by
  cases n with
  | zero => simp [runAllows_nil]
  | succ n =>
    set rl0 := NewRateLimiter rate (B : Int) ws ci it with hrl0
    obtain ⟨h1, h2, h3⟩ := allow_fresh rl0 c t (NewRateLimiter_tokens _ _ _ _ _ _)
      (NewRateLimiter_lastUpdate _ _ _ _ _ _)
      (by rw [hrl0, NewRateLimiter_requestsPerSecond]; exact hr)
    have hBnext : ((rl0.Allow c t).2).burstSize = (B : Int) := (Allow_config rl0 c t).2.1
    rw [List.replicate_succ, runAllows_cons]
    rw [show ((rl0.Allow c t).1 :: (((rl0.Allow c t).2).runAllows (List.replicate n (c, t))).1,
          (((rl0.Allow c t).2).runAllows (List.replicate n (c, t))).2).1
        = (rl0.Allow c t).1 :: (((rl0.Allow c t).2).runAllows (List.replicate n (c, t))).1 from rfl]
    rw [hrl0, NewRateLimiter_burstSize] at h1 h2
    cases B with
    | zero =>
      have hfst : (rl0.Allow c t).1 = false := by rw [h1]; simp
      have htok2 : ((rl0.Allow c t).2).tokens c = some ((0 : Nat) : Int) := by
        rw [h2]; simp
      have hB2 : ((0 : Nat) : Int) ≤ ((rl0.Allow c t).2).burstSize := by
        simp [hBnext]
      rw [drain_run c t n _ 0 htok2 h3 hB2, hfst]
      simp [List.replicate_succ]
    | succ k =>
      have hfst : (rl0.Allow c t).1 = true := by
        rw [h1]
        simp only [decide_eq_true_eq]
        exact_mod_cast Nat.succ_pos k
      have htok2 : ((rl0.Allow c t).2).tokens c = some ((k : Nat) : Int) := by
        rw [h2, if_pos (by exact_mod_cast Nat.succ_pos k)]
        congr 1
        push_cast
        ring
      have hB2 : ((k : Nat) : Int) ≤ ((rl0.Allow c t).2).burstSize := by
        rw [hBnext]
        exact_mod_cast Nat.le_succ k
      rw [drain_run c t n _ k htok2 h3 hB2, hfst]
      rw [Nat.succ_min_succ, Nat.succ_sub_succ, List.replicate_succ]
      rfl

theorem calc_nonneg (rl : RateLimiter) (c : String) (now : Nat) :
    0 ≤ rl.calculateCurrentTokens c now := by
  unfold RateLimiter.calculateCurrentTokens
  cases h : rl.lastUpdate c with
  | none => exact le_refl 0
  | some lu =>
    dsimp only
    split_ifs <;> omega

theorem calc_le_burst (rl : RateLimiter) (c : String) (now : Nat)
    (hB : 0 ≤ rl.burstSize) : rl.calculateCurrentTokens c now ≤ rl.burstSize := by
  unfold RateLimiter.calculateCurrentTokens
  cases h : rl.lastUpdate c with
  | none => exact hB
  | some lu =>
    dsimp only
    split_ifs <;> omega

theorem BucketsInv_setClient_burst (rl : RateLimiter) (c : String) (t : Nat)
    (hB : 0 ≤ rl.burstSize) (h : BucketsInv rl) :
    BucketsInv (rl.setClient c rl.burstSize t) := by
  intro k v hv
  rw [setClient_tokens] at hv
  by_cases hk : k = c
  · rw [if_pos hk] at hv
    cases hv
    exact ⟨hB, le_refl _⟩
  · rw [if_neg hk] at hv
    exact h k v hv

theorem BucketsInv_finishAllow (rl : RateLimiter) (c : String) (now : Nat)
    (hB : 0 ≤ rl.burstSize) (h : BucketsInv rl) :
    BucketsInv ((rl.finishAllow c now).2) := by
  intro k v hv
  have hBeq : ((rl.finishAllow c now).2).burstSize = rl.burstSize :=
    (finishAllow_config rl c now).2.1
  rw [hBeq]
  have hcnn := calc_nonneg rl c now
  have hcle := calc_le_burst rl c now hB
  by_cases hk : k = c
  · rw [hk, finishAllow_tokens_self] at hv
    cases hv
    constructor
    · split <;> omega
    · split <;> omega
  · rw [finishAllow_tokens_other rl c now k hk] at hv
    exact h k v hv

theorem BucketsInv_cleanupStep (rl : RateLimiter) (now : Nat)
    (h : BucketsInv rl) : BucketsInv (rl.cleanupStep now) := by
  intro k v hv
  have hBeq : (rl.cleanupStep now).burstSize = rl.burstSize :=
    (cleanupStep_config rl now).2.1
  rw [hBeq]
  rcases cleanupStep_cases rl now k with ⟨h1, _⟩ | ⟨h1, _, _, _, _⟩
  · rw [h1] at hv
    exact h k v hv
  · rw [h1] at hv
    cases hv

theorem BucketsInv_allow (rl : RateLimiter) (c : String) (now : Nat)
    (hB : 0 ≤ rl.burstSize) (h : BucketsInv rl) :
    BucketsInv ((rl.Allow c now).2) := by
  have h1 : BucketsInv (rl.cleanupStep now) := BucketsInv_cleanupStep rl now h
  have hB1 : 0 ≤ (rl.cleanupStep now).burstSize := by
    rw [(cleanupStep_config rl now).2.1]; exact hB
  unfold RateLimiter.Allow
  dsimp only
  cases htok : (rl.cleanupStep now).tokens c with
  | none =>
    by_cases hz : (rl.cleanupStep now).requestsPerSecond = 0
    · rw [if_pos hz]
      exact h1
    · rw [if_neg hz]
      exact BucketsInv_finishAllow
        ((rl.cleanupStep now).setClient c (rl.cleanupStep now).burstSize now) c now hB1
        (BucketsInv_setClient_burst (rl.cleanupStep now) c now hB1 h1)
  | some v0 =>
    by_cases hidle : (now : Int) - ((((rl.cleanupStep now).lastUpdate c).getD 0 : Nat) : Int)
        > ((rl.cleanupStep now).inactiveThreshold : Int)
    · rw [if_pos hidle]
      exact BucketsInv_finishAllow
        ((rl.cleanupStep now).setClient c (rl.cleanupStep now).burstSize now) c now hB1
        (BucketsInv_setClient_burst (rl.cleanupStep now) c now hB1 h1)
    · rw [if_neg hidle]
      exact BucketsInv_finishAllow (rl.cleanupStep now) c now hB1 h1

theorem runState_cons (rl : RateLimiter) (p : String × Nat) (ps : List (String × Nat)) :
    rl.runState (p :: ps) = ((rl.Allow p.1 p.2).2).runState ps := rfl

theorem runState_nil (rl : RateLimiter) : rl.runState [] = rl := rfl

theorem runState_config (calls : List (String × Nat)) :
    ∀ (rl : RateLimiter),
      (rl.runState calls).requestsPerSecond = rl.requestsPerSecond ∧
      (rl.runState calls).burstSize = rl.burstSize ∧
      (rl.runState calls).cleanupInterval = rl.cleanupInterval ∧
      (rl.runState calls).inactiveThreshold = rl.inactiveThreshold := by
  induction calls with
  | nil => intro rl; exact ⟨rfl, rfl, rfl, rfl⟩
  | cons p ps ih =>
    intro rl
    rw [runState_cons]
    have ha := Allow_config rl p.1 p.2
    have hi := ih ((rl.Allow p.1 p.2).2)
    exact ⟨hi.1.trans ha.1, hi.2.1.trans ha.2.1, hi.2.2.1.trans ha.2.2.1,
      hi.2.2.2.trans ha.2.2.2⟩

theorem BucketsInv_runState (calls : List (String × Nat)) :
    ∀ (rl : RateLimiter), 0 ≤ rl.burstSize → BucketsInv rl →
      BucketsInv (rl.runState calls) := by
  induction calls with
  | nil => intro rl _ h; exact h
  | cons p ps ih =>
    intro rl hB h
    rw [runState_cons]
    exact ih _ (by rw [(Allow_config rl p.1 p.2).2.1]; exact hB)
      (BucketsInv_allow rl p.1 p.2 hB h)

theorem GetMapState_none_of_tokens_none (rl : RateLimiter) (t1 : Nat) (k : String)
    (h : rl.tokens k = none) : rl.GetMapState t1 k = none := by
  unfold RateLimiter.GetMapState
  rw [h]

/-- A call on a bucket at 0 tokens after a gap `g` too short to grant a
token (`g * rate < 1 s`) and no longer than the idle threshold: denied,
still 0 tokens, `lastUpdate` advanced to the call instant. -/
theorem allow_zero_gap_step (rl : RateLimiter) (c : String) (t g : Nat)
    (htok : rl.tokens c = some 0) (hlu : rl.lastUpdate c = some t)
    (hgap : (g : Int) * rl.requestsPerSecond < ((NANOS : Nat) : Int))
    (hrate : 1 ≤ rl.requestsPerSecond)
    (hth : (g : Int) ≤ (rl.inactiveThreshold : Int)) :
    (rl.Allow c (t + g)).1 = false ∧
    ((rl.Allow c (t + g)).2).tokens c = some 0 ∧
    ((rl.Allow c (t + g)).2).lastUpdate c = some (t + g) := by
  have hlive : ¬ (((t + g : Nat) : Int) - (t : Int) > (rl.inactiveThreshold : Int)) := by
    push_cast
    omega
  have h := allow_live rl c (t + g) 0 t htok hlu hlive
  obtain ⟨ht1, hl1⟩ := cleanupStep_live rl (t + g) c t hlu hlive
  have ht1' : (rl.cleanupStep (t + g)).tokens c = some 0 := ht1.trans htok
  have hcfg := cleanupStep_config rl (t + g)
  have hcur : (rl.cleanupStep (t + g)).calculateCurrentTokens c (t + g) = 0 := by
    rw [calc_eval _ c (t + g) 0 t ht1' hl1]
    have he : ((t + g : Nat) : Int) - (t : Int) = (g : Int) := by push_cast; ring
    rw [he, hcfg.1]
    have hG : ((g : Int) * rl.requestsPerSecond).tdiv ((NANOS : Nat) : Int) = 0 :=
      Int.tdiv_eq_zero_of_lt
        (mul_nonneg (by exact_mod_cast Nat.zero_le g) (by omega)) hgap
    rw [hG]
    split_ifs <;> omega
  refine ⟨?_, ?_, ?_⟩
  · rw [h, finishAllow_fst, hcur]
    decide
  · rw [h, finishAllow_tokens_self, hcur]
    simp
  · rw [h]
    exact finishAllow_lastUpdate_self _ c (t + g)

/-- Polling a drained bucket with gaps each too short to grant a token
and each within the idle threshold never admits a request. -/
theorem poll_denied (c : String) :
    ∀ (gaps : List Nat) (rl : RateLimiter) (t : Nat),
      rl.tokens c = some 0 → rl.lastUpdate c = some t →
      1 ≤ rl.requestsPerSecond →
      (∀ g ∈ gaps, (g : Int) * rl.requestsPerSecond < ((NANOS : Nat) : Int) ∧
        (g : Int) ≤ (rl.inactiveThreshold : Int)) →
      rl.pollRun c t gaps = List.replicate gaps.length false := by
  intro gaps
  induction gaps with
  | nil => intro rl t _ _ _ _; rfl
  | cons g gs ih =>
    intro rl t htok hlu hrate hg
    obtain ⟨hf, ht2, hl2⟩ := allow_zero_gap_step rl c t g htok hlu
      (hg g (List.mem_cons_self g gs)).1 hrate (hg g (List.mem_cons_self g gs)).2
    have hcfg := Allow_config rl c (t + g)
    rw [show rl.pollRun c t (g :: gs)
        = ((rl.Allow c (t + g)).1 :: ((rl.Allow c (t + g)).2).pollRun c (t + g) gs) from rfl]
    rw [hf, ih ((rl.Allow c (t + g)).2) (t + g) ht2 hl2 (by rw [hcfg.1]; exact hrate)
      (fun g2 hg2 => by
        rw [hcfg.1, hcfg.2.2.2]
        exact hg g2 (List.mem_cons_of_mem g hg2))]
    rfl

/-- Every `Allow` call on a key with an existing bucket (with a nonzero
rate) writes `lastUpdate = now`, denied calls included. -/
theorem allow_existing_sets_lastUpdate (rl : RateLimiter) (c : String) (now : Nat)
    (v : Int) (hr : rl.requestsPerSecond ≠ 0) (htok : rl.tokens c = some v) :
    ((rl.Allow c now).2).lastUpdate c = some now := by
  rcases cleanupStep_cases rl now c with ⟨h1, _⟩ | ⟨h1, _, lu, _, _⟩
  · have ht1 : (rl.cleanupStep now).tokens c = some v := h1.trans htok
    unfold RateLimiter.Allow
    dsimp only
    rw [ht1]
    dsimp only
    by_cases hidle : (now : Int) - ((((rl.cleanupStep now).lastUpdate c).getD 0 : Nat) : Int)
        > ((rl.cleanupStep now).inactiveThreshold : Int)
    · rw [if_pos hidle]
      exact finishAllow_lastUpdate_self _ c now
    · rw [if_neg hidle]
      exact finishAllow_lastUpdate_self _ c now
  · have hr1 : ¬ ((rl.cleanupStep now).requestsPerSecond = 0) := by
      rw [(cleanupStep_config rl now).1]; exact hr
    unfold RateLimiter.Allow
    dsimp only
    rw [h1]
    dsimp only
    rw [if_neg hr1]
    exact finishAllow_lastUpdate_self _ c now

theorem lastIdxOf_cons (c x : Char) (xs : List Char) :
    lastIdxOf c (x :: xs) =
      match lastIdxOf c xs with
      | some i => some (i + 1)
      | none => if x = c then some 0 else none := rfl

theorem lastIdxOf_eq_none (c : Char) : ∀ (l : List Char), c ∉ l → lastIdxOf c l = none := by
  intro l
  induction l with
  | nil => intro _; rfl
  | cons x xs ih =>
    intro h
    rw [lastIdxOf_cons, ih (fun hm => h (List.mem_cons_of_mem x hm))]
    show (if x = c then some 0 else none) = none
    rw [if_neg (fun he => h (by rw [← he]; exact List.mem_cons_self x xs))]

/-- The rightmost colon of `ip ++ ":" ++ port` sits at index `ip.length`
when `port` itself contains no colon. -/
theorem lastIdxOf_append_colon (port : List Char) (h : ':' ∉ port) :
    ∀ (ip : List Char), lastIdxOf ':' (ip ++ ':' :: port) = some ip.length := by
  intro ip
  induction ip with
  | nil =>
    show lastIdxOf ':' (':' :: port) = some 0
    rw [lastIdxOf_cons, lastIdxOf_eq_none ':' port h]
    show (if ':' = ':' then some 0 else none) = some 0
    rw [if_pos rfl]
  | cons x xs ih =>
    show lastIdxOf ':' (x :: (xs ++ ':' :: port)) = some (xs.length + 1)
    rw [lastIdxOf_cons, ih]

/-- The tail shared by the create and reactivation-reset branches: full
burst, recompute (a no-op), then consume when possible. -/
theorem reset_tail (rl : RateLimiter) (c : String) (t : Nat) :
    ((rl.setClient c rl.burstSize t).finishAllow c t).1 = decide (0 < rl.burstSize) ∧
    (((rl.setClient c rl.burstSize t).finishAllow c t).2).tokens c =
      some (if 0 < rl.burstSize then rl.burstSize - 1 else 0) ∧
    (((rl.setClient c rl.burstSize t).finishAllow c t).2).lastUpdate c = some t := by
  have hcur := calc_after_reset rl c t
  refine ⟨?_, ?_, ?_⟩
  · rw [finishAllow_fst, hcur]
    simp only [decide_eq_decide]
    split <;> omega
  · rw [finishAllow_tokens_self, hcur]
    congr 1
    split_ifs <;> omega
  · exact finishAllow_lastUpdate_self _ c t

/-- `Allow` on a key idle beyond the threshold (nonzero rate): whether
the cleanup sweep evicted it first or the reactivation branch resets it,
the outcome is that of a fresh full burst. -/
theorem allow_idle_obs (rl : RateLimiter) (b : String) (t : Nat) (v : Int) (lu : Nat)
    (hr : rl.requestsPerSecond ≠ 0)
    (htok : rl.tokens b = some v) (hlu : rl.lastUpdate b = some lu)
    (hidle : (t : Int) - (lu : Int) > (rl.inactiveThreshold : Int)) :
    (rl.Allow b t).1 = decide (0 < rl.burstSize) ∧
    ((rl.Allow b t).2).tokens b = some (if 0 < rl.burstSize then rl.burstSize - 1 else 0) ∧
    ((rl.Allow b t).2).lastUpdate b = some t := by
  have hcfg := cleanupStep_config rl t
  have hBr : (rl.cleanupStep t).burstSize = rl.burstSize := hcfg.2.1
  rcases cleanupStep_cases rl t b with ⟨h1, h2⟩ | ⟨h1, h2, lu2, hlu2, hid2⟩
  · -- not evicted: the reactivation reset fires
    have ht1 : (rl.cleanupStep t).tokens b = some v := h1.trans htok
    have hl1 : (rl.cleanupStep t).lastUpdate b = some lu := h2.trans hlu
    unfold RateLimiter.Allow
    dsimp only
    rw [ht1]
    dsimp only
    rw [hl1]
    simp only [Option.getD_some]
    rw [if_pos (by rw [hcfg.2.2.2]; exact hidle)]
    rw [← hBr]
    exact reset_tail (rl.cleanupStep t) b t
  · -- evicted: the create branch fires
    have hr1 : ¬ ((rl.cleanupStep t).requestsPerSecond = 0) := by
      rw [hcfg.1]; exact hr
    unfold RateLimiter.Allow
    dsimp only
    rw [h1]
    dsimp only
    rw [if_neg hr1]
    rw [← hBr]
    exact reset_tail (rl.cleanupStep t) b t

/-- `Allow` on a live (not idle) key: the outcome is the lazy refill of
the stored bucket followed by a consume when possible. -/
theorem allow_live_obs (rl : RateLimiter) (b : String) (t : Nat) (v : Int) (lu : Nat)
    (htok : rl.tokens b = some v) (hlu : rl.lastUpdate b = some lu)
    (hlive : ¬ ((t : Int) - (lu : Int) > (rl.inactiveThreshold : Int))) :
    (rl.Allow b t).1 = decide (0 < rl.calculateCurrentTokens b t) ∧
    ((rl.Allow b t).2).tokens b =
      some (if 0 < rl.calculateCurrentTokens b t then rl.calculateCurrentTokens b t - 1
            else rl.calculateCurrentTokens b t) ∧
    ((rl.Allow b t).2).lastUpdate b = some t := by
  have h := allow_live rl b t v lu htok hlu hlive
  obtain ⟨ht1, hl1⟩ := cleanupStep_live rl t b lu hlu hlive
  have ht1' : (rl.cleanupStep t).tokens b = some v := ht1.trans htok
  have hcfg := cleanupStep_config rl t
  have hcalc : (rl.cleanupStep t).calculateCurrentTokens b t
      = rl.calculateCurrentTokens b t := by
    rw [calc_eval _ b t v lu ht1' hl1, calc_eval rl b t v lu htok hlu, hcfg.1, hcfg.2.1]
  refine ⟨?_, ?_, ?_⟩
  · rw [h, finishAllow_fst, hcalc]
  · rw [h, finishAllow_tokens_self, hcalc]
  · rw [h]
    exact finishAllow_lastUpdate_self _ b t

/-- `calculateCurrentTokens` depends only on the key's bucket and the
configuration. -/
theorem calc_congr (rl1 rl2 : RateLimiter) (b : String) (t : Nat) (v : Int) (lu : Nat)
    (h1 : rl1.tokens b = some v) (h2 : rl1.lastUpdate b = some lu)
    (h3 : rl2.tokens b = some v) (h4 : rl2.lastUpdate b = some lu)
    (hr : rl1.requestsPerSecond = rl2.requestsPerSecond)
    (hB : rl1.burstSize = rl2.burstSize) :
    rl1.calculateCurrentTokens b t = rl2.calculateCurrentTokens b t := by
  rw [calc_eval rl1 b t v lu h1 h2, calc_eval rl2 b t v lu h3 h4, hr, hB]

/-- An `Allow` call for a different key touches `b`'s bucket only through
the piggybacked sweep: it is left unchanged, or deleted when idle beyond
the threshold. -/
theorem allow_other_key_b (rl : RateLimiter) (k : String) (t : Nat) (b : String)
    (hkb : k ≠ b) :
    (((rl.Allow k t).2).tokens b = rl.tokens b ∧
     ((rl.Allow k t).2).lastUpdate b = rl.lastUpdate b)
    ∨ (((rl.Allow k t).2).tokens b = none ∧ ((rl.Allow k t).2).lastUpdate b = none ∧
       ∃ lu, rl.lastUpdate b = some lu ∧
         (t : Int) - (lu : Int) > (rl.inactiveThreshold : Int)) := by
  have hbk : b ≠ k := fun he => hkb he.symm
  have hmain : ((rl.Allow k t).2).tokens b = (rl.cleanupStep t).tokens b ∧
      ((rl.Allow k t).2).lastUpdate b = (rl.cleanupStep t).lastUpdate b := by
    unfold RateLimiter.Allow
    dsimp only
    cases htokk : (rl.cleanupStep t).tokens k with
    | none =>
      by_cases hz : (rl.cleanupStep t).requestsPerSecond = 0
      · rw [if_pos hz]
        exact ⟨rfl, rfl⟩
      · rw [if_neg hz]
        constructor
        · rw [finishAllow_tokens_other _ k t b hbk, setClient_tokens, if_neg hbk]
        · rw [finishAllow_lastUpdate_other _ k t b hbk, setClient_lastUpdate, if_neg hbk]
    | some v0 =>
      by_cases hidle : (t : Int) - ((((rl.cleanupStep t).lastUpdate k).getD 0 : Nat) : Int)
          > ((rl.cleanupStep t).inactiveThreshold : Int)
      · rw [if_pos hidle]
        constructor
        · rw [finishAllow_tokens_other _ k t b hbk, setClient_tokens, if_neg hbk]
        · rw [finishAllow_lastUpdate_other _ k t b hbk, setClient_lastUpdate, if_neg hbk]
      · rw [if_neg hidle]
        exact ⟨finishAllow_tokens_other _ k t b hbk,
          finishAllow_lastUpdate_other _ k t b hbk⟩
  rcases cleanupStep_cases rl t b with ⟨h1, h2⟩ | ⟨h1, h2, lu, hlu, hid⟩
  · exact Or.inl ⟨hmain.1.trans h1, hmain.2.trans h2⟩
  · exact Or.inr ⟨hmain.1.trans h1, hmain.2.trans h2, lu, hlu, hid⟩

theorem SyncB_of_some (rl : RateLimiter) (b : String) (w : Int) (u : Nat)
    (h1 : rl.tokens b = some w) (h2 : rl.lastUpdate b = some u) : SyncB b rl := by
  constructor
  · intro h; rw [h1] at h; exact Option.noConfusion h
  · intro h; rw [h2] at h; exact Option.noConfusion h

theorem BRel_symm (b : String) (s : Nat) (rl1 rl2 : RateLimiter) :
    BRel b s rl1 rl2 → BRel b s rl2 rl1 := by
  rintro (⟨h1, h2⟩ | h | h)
  · exact Or.inl ⟨h1.symm, h2.symm⟩
  · exact Or.inr (Or.inr h)
  · exact Or.inr (Or.inl h)

theorem BRel_mono (b : String) (s t : Nat) (hst : s ≤ t) (rl1 rl2 : RateLimiter) :
    BRel b s rl1 rl2 → BRel b t rl1 rl2 := by
  rintro (h | ⟨h1, h2, v, lu, h3, h4, h5⟩ | ⟨h1, h2, v, lu, h3, h4, h5⟩)
  · exact Or.inl h
  · exact Or.inr (Or.inl ⟨h1, h2, v, lu, h3, h4, by omega⟩)
  · exact Or.inr (Or.inr ⟨h1, h2, v, lu, h3, h4, by omega⟩)

/-- Stepping the left store with a call for a key other than `b`
preserves the simulation relation (the only effect on `b` is a possible
eviction of an idle bucket, which the relation absorbs). -/
theorem BRel_step_left (rl1 rl2 : RateLimiter) (b k : String) (t s : Nat) (hkb : k ≠ b)
    (hth : rl1.inactiveThreshold = rl2.inactiveThreshold)
    (hs1 : SyncB b rl1) (hbr : BRel b s rl1 rl2) (hst : s ≤ t) :
    BRel b t ((rl1.Allow k t).2) rl2 ∧ SyncB b ((rl1.Allow k t).2) := by
  have hthA : ((rl1.Allow k t).2).inactiveThreshold = rl1.inactiveThreshold :=
    (Allow_config rl1 k t).2.2.2
  rcases allow_other_key_b rl1 k t b hkb with ⟨ht', hl'⟩ | ⟨ht', hl', lu1, hlu1, hid1⟩
  · refine ⟨?_, ?_⟩
    · rcases BRel_mono b s t hst rl1 rl2 hbr with h | ⟨h1, h2, v, lu, h3, h4, h5⟩ |
        ⟨h1, h2, v, lu, h3, h4, h5⟩
      · exact Or.inl ⟨ht'.trans h.1, hl'.trans h.2⟩
      · exact Or.inr (Or.inl ⟨ht'.trans h1, hl'.trans h2, v, lu, h3, h4, h5⟩)
      · refine Or.inr (Or.inr ⟨h1, h2, v, lu, ht'.trans h3, hl'.trans h4, ?_⟩)
        rw [hthA]
        exact h5
    · constructor
      · intro h; rw [ht'] at h; rw [hl']; exact hs1.mp h
      · intro h; rw [hl'] at h; rw [ht']; exact hs1.mpr h
  · refine ⟨?_, Iff.intro (fun _ => hl') (fun _ => ht')⟩
    have htok1 : ∃ v1, rl1.tokens b = some v1 := by
      cases hx : rl1.tokens b with
      | none =>
        rw [hs1.mp hx] at hlu1
        exact Option.noConfusion hlu1
      | some v1 => exact ⟨v1, rfl⟩
    obtain ⟨v1, htok1⟩ := htok1
    rcases BRel_mono b s t hst rl1 rl2 hbr with h | ⟨h1, h2, v, lu, h3, h4, h5⟩ |
      ⟨h1, h2, v, lu, h3, h4, h5⟩
    · refine Or.inr (Or.inl ⟨ht', hl', v1, lu1, ?_, ?_, ?_⟩)
      · rw [← h.1]; exact htok1
      · rw [← h.2]; exact hlu1
      · rw [← hth]; exact hid1
    · rw [h2] at hlu1
      exact Option.noConfusion hlu1
    · exact Or.inl ⟨ht'.trans h1.symm, hl'.trans h2.symm⟩

/-- Stepping both stores with a call for `b` itself: equal admission
results and equal buckets afterwards. -/
theorem BRel_step_b (rl1 rl2 : RateLimiter) (b : String) (t s : Nat)
    (hr1 : rl1.requestsPerSecond ≠ 0)
    (hreq : rl1.requestsPerSecond = rl2.requestsPerSecond)
    (hB : rl1.burstSize = rl2.burstSize)
    (hth : rl1.inactiveThreshold = rl2.inactiveThreshold)
    (hs1 : SyncB b rl1) (_hs2 : SyncB b rl2)
    (hbr : BRel b s rl1 rl2) (hst : s ≤ t) :
    (rl1.Allow b t).1 = (rl2.Allow b t).1 ∧
    BRel b t ((rl1.Allow b t).2) ((rl2.Allow b t).2) ∧
    SyncB b ((rl1.Allow b t).2) ∧ SyncB b ((rl2.Allow b t).2) := by
  have hr2 : rl2.requestsPerSecond ≠ 0 := by rw [← hreq]; exact hr1
  rcases BRel_mono b s t hst rl1 rl2 hbr with ⟨he1, he2⟩ | ⟨h1, h2, v, lu, h3, h4, h5⟩ |
    ⟨h1, h2, v, lu, h3, h4, h5⟩
  · cases hx : rl1.tokens b with
    | none =>
      have hx2 : rl2.tokens b = none := by rw [← he1]; exact hx
      have hy : rl1.lastUpdate b = none := hs1.mp hx
      have hy2 : rl2.lastUpdate b = none := by rw [← he2]; exact hy
      obtain ⟨f1, t1, l1⟩ := allow_fresh rl1 b t hx hy hr1
      obtain ⟨f2, t2, l2⟩ := allow_fresh rl2 b t hx2 hy2 hr2
      exact ⟨by rw [f1, f2, hB], Or.inl ⟨by rw [t1, t2, hB], by rw [l1, l2]⟩,
        SyncB_of_some _ b _ _ t1 l1, SyncB_of_some _ b _ _ t2 l2⟩
    | some v0 =>
      have hlu1 : ∃ lu0, rl1.lastUpdate b = some lu0 := by
        cases hy : rl1.lastUpdate b with
        | none =>
          rw [hs1.mpr hy] at hx
          exact Option.noConfusion hx
        | some lu0 => exact ⟨lu0, rfl⟩
      obtain ⟨lu0, hlu1⟩ := hlu1
      have hx2 : rl2.tokens b = some v0 := by rw [← he1]; exact hx
      have hlu2 : rl2.lastUpdate b = some lu0 := by rw [← he2]; exact hlu1
      by_cases hidle : (t : Int) - (lu0 : Int) > (rl1.inactiveThreshold : Int)
      · obtain ⟨f1, t1, l1⟩ := allow_idle_obs rl1 b t v0 lu0 hr1 hx hlu1 hidle
        obtain ⟨f2, t2, l2⟩ := allow_idle_obs rl2 b t v0 lu0 hr2 hx2 hlu2
          (by rw [← hth]; exact hidle)
        exact ⟨by rw [f1, f2, hB], Or.inl ⟨by rw [t1, t2, hB], by rw [l1, l2]⟩,
          SyncB_of_some _ b _ _ t1 l1, SyncB_of_some _ b _ _ t2 l2⟩
      · obtain ⟨f1, t1, l1⟩ := allow_live_obs rl1 b t v0 lu0 hx hlu1 hidle
        obtain ⟨f2, t2, l2⟩ := allow_live_obs rl2 b t v0 lu0 hx2 hlu2
          (by rw [← hth]; exact hidle)
        have hc := calc_congr rl1 rl2 b t v0 lu0 hx hlu1 hx2 hlu2 hreq hB
        exact ⟨by rw [f1, f2, hc], Or.inl ⟨by rw [t1, t2, hc], by rw [l1, l2]⟩,
          SyncB_of_some _ b _ _ t1 l1, SyncB_of_some _ b _ _ t2 l2⟩
  · obtain ⟨f1, t1, l1⟩ := allow_fresh rl1 b t h1 h2 hr1
    obtain ⟨f2, t2, l2⟩ := allow_idle_obs rl2 b t v lu hr2 h3 h4 (by omega)
    exact ⟨by rw [f1, f2, hB], Or.inl ⟨by rw [t1, t2, hB], by rw [l1, l2]⟩,
      SyncB_of_some _ b _ _ t1 l1, SyncB_of_some _ b _ _ t2 l2⟩
  · obtain ⟨f1, t1, l1⟩ := allow_idle_obs rl1 b t v lu hr1 h3 h4 (by omega)
    obtain ⟨f2, t2, l2⟩ := allow_fresh rl2 b t h1 h2 hr2
    exact ⟨by rw [f1, f2, hB], Or.inl ⟨by rw [t1, t2, hB], by rw [l1, l2]⟩,
      SyncB_of_some _ b _ _ t1 l1, SyncB_of_some _ b _ _ t2 l2⟩

/-- The simulation: running the full interleaved trace on one store and
the trace with key `a`'s calls removed on another leaves `b`'s next
admission result identical, provided call times are nondecreasing. -/
theorem sim_filter (a b : String) (hab : a ≠ b) :
    ∀ (calls : List (String × Nat)) (rl1 rl2 : RateLimiter) (s : Nat),
      rl1.requestsPerSecond ≠ 0 →
      rl1.requestsPerSecond = rl2.requestsPerSecond →
      rl1.burstSize = rl2.burstSize →
      rl1.inactiveThreshold = rl2.inactiveThreshold →
      SyncB b rl1 → SyncB b rl2 →
      BRel b s rl1 rl2 →
      (∀ p ∈ calls, s ≤ p.2) →
      List.Pairwise (fun p q : String × Nat => p.2 ≤ q.2) calls →
      ∀ t, (∀ p ∈ calls, p.2 ≤ t) → s ≤ t →
      ((rl1.runState calls).Allow b t).1 =
        ((rl2.runState (calls.filter (fun p => decide (p.1 ≠ a)))).Allow b t).1 := by
  intro calls
  induction calls with
  | nil =>
    intro rl1 rl2 s hr1 hreq hB hth hs1 hs2 hbr _ _ t _ hst
    exact (BRel_step_b rl1 rl2 b t s hr1 hreq hB hth hs1 hs2 hbr hst).1
  | cons p ps ih =>
    obtain ⟨k, τ⟩ := p
    intro rl1 rl2 s hr1 hreq hB hth hs1 hs2 hbr hpre hpw t hbound hst
    have hsτ : s ≤ τ := hpre (k, τ) (List.mem_cons_self (k, τ) ps)
    have hppre : ∀ q ∈ ps, τ ≤ q.2 :=
      fun q hq => (List.pairwise_cons.mp hpw).1 q hq
    have hppw := (List.pairwise_cons.mp hpw).2
    have hτt : τ ≤ t := hbound (k, τ) (List.mem_cons_self (k, τ) ps)
    have hbound' : ∀ q ∈ ps, q.2 ≤ t := fun q hq => hbound q (List.mem_cons_of_mem (k, τ) hq)
    by_cases hka : k = a
    · subst hka
      have hfil : ((k, τ) :: ps).filter (fun q => decide (q.1 ≠ k)) =
          ps.filter (fun q => decide (q.1 ≠ k)) := by
        simp [List.filter]
      rw [runState_cons, hfil]
      have hcfg := Allow_config rl1 k τ
      obtain ⟨hbr', hs1'⟩ := BRel_step_left rl1 rl2 b k τ s hab hth hs1 hbr hsτ
      exact ih ((rl1.Allow k τ).2) rl2 τ (by rw [hcfg.1]; exact hr1)
        (hcfg.1.trans hreq) (hcfg.2.1.trans hB) (hcfg.2.2.2.trans hth)
        hs1' hs2 hbr' hppre hppw t hbound' hτt
    · have hfil : ((k, τ) :: ps).filter (fun q => decide (q.1 ≠ a)) =
          (k, τ) :: ps.filter (fun q => decide (q.1 ≠ a)) := by
        simp [List.filter, hka]
      rw [runState_cons, hfil, runState_cons]
      have hcfg1 := Allow_config rl1 k τ
      have hcfg2 := Allow_config rl2 k τ
      by_cases hkb : k = b
      · subst hkb
        obtain ⟨_, hbr', hs1', hs2'⟩ :=
          BRel_step_b rl1 rl2 k τ s hr1 hreq hB hth hs1 hs2 hbr hsτ
        exact ih ((rl1.Allow k τ).2) ((rl2.Allow k τ).2) τ
          (by rw [hcfg1.1]; exact hr1)
          (hcfg1.1.trans (hreq.trans hcfg2.1.symm))
          (hcfg1.2.1.trans (hB.trans hcfg2.2.1.symm))
          (hcfg1.2.2.2.trans (hth.trans hcfg2.2.2.2.symm))
          hs1' hs2' hbr' hppre hppw t hbound' hτt
      · obtain ⟨hbr1, hs1'⟩ := BRel_step_left rl1 rl2 b k τ s hkb hth hs1 hbr hsτ
        have hth21 : rl2.inactiveThreshold = ((rl1.Allow k τ).2).inactiveThreshold :=
          (hth.symm).trans hcfg1.2.2.2.symm
        obtain ⟨hbr2s, hs2'⟩ := BRel_step_left rl2 ((rl1.Allow k τ).2) b k τ τ hkb
          hth21 hs2 (BRel_symm b τ _ _ hbr1) (le_refl τ)
        have hbr2 := BRel_symm b τ _ _ hbr2s
        exact ih ((rl1.Allow k τ).2) ((rl2.Allow k τ).2) τ
          (by rw [hcfg1.1]; exact hr1)
          (hcfg1.1.trans (hreq.trans hcfg2.1.symm))
          (hcfg1.2.1.trans (hB.trans hcfg2.2.1.symm))
          (hcfg1.2.2.2.trans (hth.trans hcfg2.2.2.2.symm))
          hs1' hs2' hbr2 hppre hppw t hbound' hτt

/-! Sanity checks of the embedding on the scenarios listed in the spec. -/

example :
    ((NewRateLimiter 1 2 0 0 0).runAllows [("k", 0), ("k", 0), ("k", 0)]).1
      = [true, true, false] := by decide

example :
    ((NewRateLimiter 1 2 0 0 0).runAllows
        [("k", 0), ("k", 0), ("k", 0), ("k", 1100000000)]).1
      = [true, true, false, true] := by decide

example :
    ((NewRateLimiter 0 5 0 0 0).runAllows
        [("k", 0), ("k", 0), ("k", 0), ("k", 0), ("k", 0)]).1
      = [false, false, false, false, false] := by decide

example : GetClientID [] [] ("203.0.113.5:1111".toList) = "203.0.113.5".toList := by
  decide

example :
    GetClientID [] ("203.0.113.1, 70.41.3.18, 150.172.238.178".toList)
      ("10.0.0.1:1234".toList) = "203.0.113.1".toList := by decide

example : GetClientID ("192.168.1.1".toList) [] ("10.0.0.1:1234".toList)
    = "192.168.1.1".toList := by decide

example : GetClientID [] [] [] = "unknown".toList := by decide

/-! ### Claim C1 -/

/-- C1 counterexample: with `refillRatePerSecond = 0` and
`burstCapacity = 1`, a never-seen key is NOT admitted on its first call,
so the claim "for every configuration with burstCapacity = B the first B
consecutive calls are admitted" fails at B = 1. -/
theorem C1_counterexample :
    ((NewRateLimiter 0 1 0 0 0).runAllows (List.replicate (1 + 1) ("k", 0))).1 ≠
      List.replicate 1 true ++ [false] := by decide

/-- C1 (amended with `refillRatePerSecond ≠ 0`): for every configuration
with a nonzero rate and `burstCapacity = B ≥ 0`, a never-seen key is
admitted on exactly its first B consecutive same-instant calls and the
(B+1)-th call is denied. -/
theorem C1_first_burst_admitted (rate : Int) (B : Nat) (ws ci it : Nat)
    (c : String) (t : Nat) (hr : rate ≠ 0) :
    ((NewRateLimiter rate (B : Int) ws ci it).runAllows
        (List.replicate (B + 1) (c, t))).1 =
      List.replicate B true ++ [false] := by
  rw [fresh_run rate B ws ci it c t hr (B + 1)]
  rw [min_eq_right (Nat.le_succ B), Nat.succ_sub (le_refl B), Nat.sub_self]
  rfl

/-- C1 witness: rate 1, burst 2, three same-instant calls. -/
theorem C1_witness :
    (1 : Int) ≠ 0 ∧
    ((NewRateLimiter 1 ((2 : Nat) : Int) 0 0 0).runAllows
        (List.replicate (2 + 1) ("k", 0))).1 =
      List.replicate 2 true ++ [false] :=
  ⟨by decide, C1_first_burst_admitted 1 2 0 0 0 "k" 0 (by decide)⟩

/-! ### Claim C2 -/

/-- C2: with `refillRatePerSecond = 0`, every call of every sequence —
any keys, any times — returns false, and no bucket entry is ever
created for any key. -/
theorem C2_zero_rate_denies_all (burst : Int) (ws ci it : Nat)
    (calls : List (String × Nat)) :
    ((NewRateLimiter 0 burst ws ci it).runAllows calls).1 =
      List.replicate calls.length false ∧
    ∀ k, (((NewRateLimiter 0 burst ws ci it).runAllows calls).2).tokens k = none := by
  obtain ⟨h1, h2⟩ := zero_rate_run calls (NewRateLimiter 0 burst ws ci it) rfl
    (fun k => ⟨rfl, rfl⟩)
  exact ⟨h1, fun k => (h2 k).1⟩

/-! ### Claim C3 -/

/-- C3: for every configuration with `refillRatePerSecond ≥ 0` and
`burstCapacity ≥ 0` and every sequence of `Allow` calls, the resulting
store keeps every stored token count in `[0, burstCapacity]`, every
recomputation by `calculateCurrentTokens` yields a value in
`[0, burstCapacity]`, and every would-be count reported by the snapshot
lies in `[0, burstCapacity]` as well. -/
theorem C3_token_range_invariant (rate burst : Int) (ws ci it : Nat)
    (calls : List (String × Nat)) (hr : 0 ≤ rate) (hb : 0 ≤ burst) :
    BucketsInv ((NewRateLimiter rate burst ws ci it).runState calls) ∧
    (∀ (k : String) (now : Nat),
      0 ≤ ((NewRateLimiter rate burst ws ci it).runState calls).calculateCurrentTokens k now ∧
      ((NewRateLimiter rate burst ws ci it).runState calls).calculateCurrentTokens k now ≤ burst) ∧
    (∀ (k : String) (now : Nat) (e : Int × Int × Bool),
      ((NewRateLimiter rate burst ws ci it).runState calls).GetMapState now k = some e →
      0 ≤ e.1 ∧ e.1 ≤ burst) := by
  have hrr : 0 ≤ rate := hr
  have hBs : ((NewRateLimiter rate burst ws ci it).runState calls).burstSize = burst :=
    ((runState_config calls _).2.1).trans (NewRateLimiter_burstSize rate burst ws ci it)
  have hbi : BucketsInv ((NewRateLimiter rate burst ws ci it).runState calls) :=
    BucketsInv_runState calls _ (by rw [NewRateLimiter_burstSize]; exact hb)
      (fun k v hv => by rw [NewRateLimiter_tokens] at hv; cases hv)
  refine ⟨hbi, ?_, ?_⟩
  · intro k now
    refine ⟨calc_nonneg _ k now, ?_⟩
    have h2 := calc_le_burst _ k now (by rw [hBs]; exact hb)
    rw [hBs] at h2
    exact h2
  · intro k now e he
    revert he
    unfold RateLimiter.GetMapState
    dsimp only
    split
    · intro he
      cases he
      refine ⟨calc_nonneg _ k now, ?_⟩
      have h2 := calc_le_burst _ k now (by rw [hBs]; exact hb)
      rw [hBs] at h2
      exact h2
    · intro he
      exact Option.noConfusion he

/-- C3 witness: rate 1, burst 2, one call. -/
theorem C3_witness :
    (0 : Int) ≤ 1 ∧ (0 : Int) ≤ 2 ∧
    (BucketsInv ((NewRateLimiter 1 2 0 0 0).runState [("k", 5)]) ∧
     (∀ (k : String) (now : Nat),
       0 ≤ ((NewRateLimiter 1 2 0 0 0).runState [("k", 5)]).calculateCurrentTokens k now ∧
       ((NewRateLimiter 1 2 0 0 0).runState [("k", 5)]).calculateCurrentTokens k now ≤ 2) ∧
     (∀ (k : String) (now : Nat) (e : Int × Int × Bool),
       ((NewRateLimiter 1 2 0 0 0).runState [("k", 5)]).GetMapState now k = some e →
       0 ≤ e.1 ∧ e.1 ≤ 2)) :=
  ⟨by decide, by decide,
    C3_token_range_invariant 1 2 0 0 0 [("k", 5)] (by decide) (by decide)⟩

/-! ### Claim C5 -/

/-- C5: a bucket untouched for longer than `inactiveThreshold` is removed
entirely by the eviction sweep — absent from the snapshot at every
instant — and the next `Allow` call for that key behaves exactly as for a
never-seen key: denied outright (creating no state) when the rate is 0,
otherwise given a full fresh burst of `burstCapacity` tokens before the
decrement, hence admitted exactly when `burstCapacity > 0` and left with
`burstCapacity - 1` tokens. -/
theorem C5_idle_eviction (rl : RateLimiter) (c : String) (now : Nat) (lu : Nat) (v : Int)
    (_htok : rl.tokens c = some v) (hlu : rl.lastUpdate c = some lu)
    (hidle : (now : Int) - (lu : Int) > (rl.inactiveThreshold : Int)) :
    ((rl.cleanup now).tokens c = none ∧ (rl.cleanup now).lastUpdate c = none) ∧
    (∀ t1, (rl.cleanup now).GetMapState t1 c = none) ∧
    (∀ t2, rl.requestsPerSecond = 0 →
      ((rl.cleanup now).Allow c t2).1 = false ∧
      (((rl.cleanup now).Allow c t2).2).tokens c = none) ∧
    (∀ t2, rl.requestsPerSecond ≠ 0 →
      ((rl.cleanup now).Allow c t2).1 = decide (0 < rl.burstSize) ∧
      (((rl.cleanup now).Allow c t2).2).tokens c =
        some (if 0 < rl.burstSize then rl.burstSize - 1 else 0) ∧
      (((rl.cleanup now).Allow c t2).2).lastUpdate c = some t2) := by
  have h1 : (rl.cleanup now).tokens c = none := by
    rw [cleanup_tokens, hlu]
    show (if (lu : Int) < (now : Int) - (rl.inactiveThreshold : Int) then none
          else rl.tokens c) = none
    rw [if_pos (by omega)]
  have h2 : (rl.cleanup now).lastUpdate c = none := by
    rw [cleanup_lastUpdate, hlu]
    show (if (lu : Int) < (now : Int) - (rl.inactiveThreshold : Int) then none
          else some lu) = none
    rw [if_pos (by omega)]
  refine ⟨⟨h1, h2⟩, ?_, ?_, ?_⟩
  · intro t1
    exact GetMapState_none_of_tokens_none _ t1 c h1
  · intro t2 hz
    have hstep := allow_fresh_zero (rl.cleanup now) c t2 h1 h2 hz
    refine ⟨by rw [hstep], ?_⟩
    rw [hstep]
    exact ((cleanupStep_absent (rl.cleanup now) t2 c h2).1).trans h1
  · intro t2 hnz
    exact allow_fresh (rl.cleanup now) c t2 h1 h2 hnz

/-- C5 witness: a bucket last updated at time 0 with threshold 5 min,
swept at t = 400 s. -/
theorem C5_witness :
    ((((NewRateLimiter 1 2 0 0 0).setClient "k" 1 0).tokens "k" = some 1) ∧
     (((NewRateLimiter 1 2 0 0 0).setClient "k" 1 0).lastUpdate "k" = some 0) ∧
     ((400000000000 : Int) - ((0 : Nat) : Int) >
       ((((NewRateLimiter 1 2 0 0 0).setClient "k" 1 0).inactiveThreshold : Nat) : Int))) ∧
    ((((NewRateLimiter 1 2 0 0 0).setClient "k" 1 0).cleanup 400000000000).tokens "k"
      = none) ∧
    ((((NewRateLimiter 1 2 0 0 0).setClient "k" 1 0).cleanup 400000000000).GetMapState
      400000000000 "k" = none) ∧
    (((((NewRateLimiter 1 2 0 0 0).setClient "k" 1 0).cleanup 400000000000).Allow "k"
      400000000000).1 = decide (0 < (((NewRateLimiter 1 2 0 0 0).setClient "k" 1 0).burstSize))) := by
  refine ⟨⟨by decide, by decide, by decide⟩, ?_, ?_, ?_⟩
  · exact (C5_idle_eviction ((NewRateLimiter 1 2 0 0 0).setClient "k" 1 0) "k"
      400000000000 0 1 (by decide) (by decide) (by decide)).1.1
  · exact (C5_idle_eviction ((NewRateLimiter 1 2 0 0 0).setClient "k" 1 0) "k"
      400000000000 0 1 (by decide) (by decide) (by decide)).2.1 400000000000
  · exact ((C5_idle_eviction ((NewRateLimiter 1 2 0 0 0).setClient "k" 1 0) "k"
      400000000000 0 1 (by decide) (by decide) (by decide)).2.2.2 400000000000
      (by decide)).1

/-! ### Claim C6 -/

/-- C6 counterexample: rate 1/s, burst 2, threshold 1 s, a bucket at 0
tokens idle for 1.5 s.  The reset path yields 2 tokens but the capped
lazy refill yields only 1, so the two paths are NOT observationally
equivalent: the lazy grant `floor(1.5 * 1) = 1` does not reach the cap. -/
theorem C6_counterexample :
    ((0 : Int) ≤ 0 ∧
     (0 : Int) ≤ ((NewRateLimiter 1 2 0 0 1000000000).setClient "k" 0 0).burstSize ∧
     (1500000000 : Int) - ((0 : Nat) : Int) >
       ((((NewRateLimiter 1 2 0 0 1000000000).setClient "k" 0 0).inactiveThreshold : Nat) : Int)) ∧
    ((NewRateLimiter 1 2 0 0 1000000000).setClient "k" 0 0).resetThenRecompute "k" 1500000000 ≠
      specLazyRefill 0 1500000000 1 2 := by decide

/-- C6 (amended): the reactivation reset and the capped lazy refill agree
exactly when the lazy grant `floor(elapsedSeconds * rate)` reaches the
missing amount `burstCapacity - tokens` (so the refill would saturate at
the cap); the counterexample shows they differ otherwise. -/
theorem C6_reset_refill_equiv (rl : RateLimiter) (c : String) (v : Int) (lu now : Nat)
    (_htok : rl.tokens c = some v) (_hlu : rl.lastUpdate c = some lu)
    (h0 : 0 ≤ v) (hB : v ≤ rl.burstSize)
    (_hidle : (now : Int) - (lu : Int) > (rl.inactiveThreshold : Int))
    (hsat : rl.burstSize - v ≤
      (((now - lu : Nat) : Int) * rl.requestsPerSecond).fdiv ((NANOS : Nat) : Int)) :
    rl.resetThenRecompute c now =
      specLazyRefill v (now - lu) rl.requestsPerSecond rl.burstSize := by
  unfold RateLimiter.resetThenRecompute specLazyRefill
  rw [calc_after_reset]
  rw [if_neg (not_lt.mpr (le_trans h0 hB))]
  omega

/-- C6 witness: same configuration as the counterexample but idle for
2.5 s, where the grant of 2 tokens does reach the cap. -/
theorem C6_witness :
    ((((NewRateLimiter 1 2 0 0 1000000000).setClient "k" 0 0).tokens "k" = some 0) ∧
     (((NewRateLimiter 1 2 0 0 1000000000).setClient "k" 0 0).lastUpdate "k" = some 0) ∧
     (0 : Int) ≤ 0 ∧
     (0 : Int) ≤ ((NewRateLimiter 1 2 0 0 1000000000).setClient "k" 0 0).burstSize ∧
     (2500000000 : Int) - ((0 : Nat) : Int) >
       ((((NewRateLimiter 1 2 0 0 1000000000).setClient "k" 0 0).inactiveThreshold : Nat) : Int) ∧
     ((NewRateLimiter 1 2 0 0 1000000000).setClient "k" 0 0).burstSize - 0 ≤
       (((2500000000 - 0 : Nat) : Int) *
         ((NewRateLimiter 1 2 0 0 1000000000).setClient "k" 0 0).requestsPerSecond).fdiv
         ((NANOS : Nat) : Int)) ∧
    ((NewRateLimiter 1 2 0 0 1000000000).setClient "k" 0 0).resetThenRecompute "k" 2500000000 =
      specLazyRefill 0 (2500000000 - 0)
        ((NewRateLimiter 1 2 0 0 1000000000).setClient "k" 0 0).requestsPerSecond
        ((NewRateLimiter 1 2 0 0 1000000000).setClient "k" 0 0).burstSize :=
  ⟨⟨by decide, by decide, by decide, by decide, by decide, by decide⟩,
    C6_reset_refill_equiv ((NewRateLimiter 1 2 0 0 1000000000).setClient "k" 0 0) "k" 0 0
      2500000000 (by decide) (by decide) (by decide) (by decide) (by decide) (by decide)⟩

/-! ### Claim C7 -/

/-- C7 counterexample: rate 1/s, burst 1, inactiveThreshold 0.5 s.  After
its first call the key sits at 0 tokens; a second call only 0.9 s later
(strictly less than 1/R = 1 s) is nevertheless ADMITTED, because the gap
exceeds the inactive threshold and triggers the reactivation reset to a
full burst.  So "never admitted, no matter how much total time elapses"
fails without a bound of the polling gap by the threshold. -/
theorem C7_counterexample :
    ((((NewRateLimiter 1 1 0 0 500000000).runAllows [("k", 0)]).2).tokens "k" = some 0) ∧
    ((NewRateLimiter 1 1 0 0 500000000).runAllows [("k", 0), ("k", 900000000)]).1
      = [true, true] := by decide

/-- C7 (amended: each polling gap must also be at most
`inactiveThreshold`, otherwise the reactivation reset refills the
bucket): every `Allow` call on an existing key — denied ones included —
sets its `lastUpdate` to the call instant; consequently a key at 0 tokens
polled with gaps strictly shorter than `1/R` seconds (and no longer than
the idle threshold) is never admitted, no matter how much total time
elapses. -/
theorem C7_slow_poll_starves :
    (∀ (rl : RateLimiter) (c : String) (now : Nat) (v : Int),
      1 ≤ rl.requestsPerSecond → rl.tokens c = some v →
      ((rl.Allow c now).2).lastUpdate c = some now) ∧
    (∀ (rl : RateLimiter) (c : String) (t : Nat) (gaps : List Nat),
      1 ≤ rl.requestsPerSecond → rl.tokens c = some 0 → rl.lastUpdate c = some t →
      (∀ g ∈ gaps, (g : Int) * rl.requestsPerSecond < ((NANOS : Nat) : Int) ∧
        (g : Int) ≤ (rl.inactiveThreshold : Int)) →
      rl.pollRun c t gaps = List.replicate gaps.length false) := by
  constructor
  · intro rl c now v hr htok
    exact allow_existing_sets_lastUpdate rl c now v (by omega) htok
  · intro rl c t gaps hr htok hlu hg
    exact poll_denied c gaps rl t htok hlu hr hg

/-- C7 witness: rate 2/s, a key at 0 tokens polled twice with 0.4 s gaps. -/
theorem C7_witness :
    ((1 : Int) ≤ ((NewRateLimiter 2 1 0 0 0).setClient "k" 0 7).requestsPerSecond ∧
     ((NewRateLimiter 2 1 0 0 0).setClient "k" 0 7).tokens "k" = some 0 ∧
     ((NewRateLimiter 2 1 0 0 0).setClient "k" 0 7).lastUpdate "k" = some 7 ∧
     (∀ g ∈ [400000000, 400000000],
       (g : Int) * ((NewRateLimiter 2 1 0 0 0).setClient "k" 0 7).requestsPerSecond <
         ((NANOS : Nat) : Int) ∧
       (g : Int) ≤ (((NewRateLimiter 2 1 0 0 0).setClient "k" 0 7).inactiveThreshold : Int))) ∧
    ((NewRateLimiter 2 1 0 0 0).setClient "k" 0 7).pollRun "k" 7 [400000000, 400000000] =
      List.replicate ([400000000, 400000000] : List Nat).length false :=
  ⟨⟨by decide, by decide, by decide, by decide⟩,
    C7_slow_poll_starves.2 ((NewRateLimiter 2 1 0 0 0).setClient "k" 0 7) "k" 7
      [400000000, 400000000] (by decide) (by decide) (by decide) (by decide)⟩

/-! ### Claim C8 -/

/-- C8: for two distinct keys `a` and `b` in the same store, the calls
made for `a` — including ones that exhaust `a`'s bucket — do not change
the admission outcome of `b`'s next call: running any nondecreasing-time
trace with `a`'s calls removed yields the same result for `b`. -/
theorem C8_key_independence (rate burst : Int) (ws ci it : Nat) (a b : String)
    (calls : List (String × Nat)) (t : Nat) (hab : a ≠ b)
    (hmono : List.Pairwise (fun p q : String × Nat => p.2 ≤ q.2) calls)
    (hbound : ∀ p ∈ calls, p.2 ≤ t) :
    (((NewRateLimiter rate burst ws ci it).runState calls).Allow b t).1 =
    (((NewRateLimiter rate burst ws ci it).runState
        (calls.filter (fun p => decide (p.1 ≠ a)))).Allow b t).1 := by
  by_cases hz : rate = 0
  · subst hz
    have h1 := zero_rate_run calls (NewRateLimiter 0 burst ws ci it) rfl
      (fun k => ⟨rfl, rfl⟩)
    have h2 := zero_rate_run (calls.filter (fun p => decide (p.1 ≠ a)))
      (NewRateLimiter 0 burst ws ci it) rfl (fun k => ⟨rfl, rfl⟩)
    have hA1 := allow_fresh_zero ((NewRateLimiter 0 burst ws ci it).runState calls) b t
      ((h1.2 b).1) ((h1.2 b).2) ((runState_config calls _).1)
    have hA2 := allow_fresh_zero
      ((NewRateLimiter 0 burst ws ci it).runState
        (calls.filter (fun p => decide (p.1 ≠ a)))) b t
      ((h2.2 b).1) ((h2.2 b).2)
      ((runState_config (calls.filter (fun p => decide (p.1 ≠ a))) _).1)
    rw [hA1, hA2]
  · exact sim_filter a b hab calls (NewRateLimiter rate burst ws ci it)
      (NewRateLimiter rate burst ws ci it) 0 hz rfl rfl rfl
      (Iff.intro (fun _ => rfl) (fun _ => rfl)) (Iff.intro (fun _ => rfl) (fun _ => rfl))
      (Or.inl ⟨rfl, rfl⟩) (fun p _ => Nat.zero_le p.2) hmono t hbound (Nat.zero_le t)

/-- C8 witness: key `a` exhausts its bucket at times 0 and 1; key `b`'s
call at time 2 is unaffected. -/
theorem C8_witness :
    ("a" ≠ "b") ∧
    List.Pairwise (fun p q : String × Nat => p.2 ≤ q.2) [("a", 0), ("a", 1)] ∧
    (∀ p ∈ ([("a", 0), ("a", 1)] : List (String × Nat)), p.2 ≤ 2) ∧
    (((NewRateLimiter 1 1 0 0 0).runState [("a", 0), ("a", 1)]).Allow "b" 2).1 =
    (((NewRateLimiter 1 1 0 0 0).runState
        (([("a", 0), ("a", 1)] : List (String × Nat)).filter
          (fun p => decide (p.1 ≠ "a")))).Allow "b" 2).1 :=
  ⟨by decide, by decide, by decide,
    C8_key_independence 1 1 0 0 0 "a" "b" [("a", 0), ("a", 1)] 2 (by decide)
      (by decide) (by decide)⟩

/-! ### Claim C9 -/

/-- C9 counterexample: a forwarded-for value beginning with a comma.  Its
first comma-separated entry, trimmed, is empty, but the resolver returns
the whole value because the source only splits when the first comma sits
at a strictly positive index. -/
theorem C9_counterexample :
    firstIdxOf ',' (",1.2.3.4".toList) = some 0 ∧
    trimSpace ((",1.2.3.4".toList).take 0) = [] ∧
    GetClientID [] (",1.2.3.4".toList) ("9.9.9.9:80".toList) = ",1.2.3.4".toList ∧
    GetClientID [] (",1.2.3.4".toList) ("9.9.9.9:80".toList) ≠
      trimSpace ((",1.2.3.4".toList).take 0) := by decide

/-- C9 (amended at two boundary inputs): identical keys for the two
example socket addresses; trusted real-IP returned verbatim when
non-empty; the forwarded-for value is split at its first comma only when
that comma sits at a positive index (otherwise the whole trimmed value is
returned — the counterexample); the socket address has its `:port`
stripped at the rightmost colon whenever that colon sits at a positive
index. -/
theorem C9_resolution_priority :
    (GetClientID [] [] ("203.0.113.5:1111".toList) =
      GetClientID [] [] ("203.0.113.5:2222".toList)) ∧
    (∀ realIP fwd addr : List Char, realIP ≠ [] → GetClientID realIP fwd addr = realIP) ∧
    (∀ (fwd addr : List Char) (i : Nat), firstIdxOf ',' fwd = some i → 0 < i →
      GetClientID [] fwd addr = trimSpace (fwd.take i)) ∧
    (∀ fwd addr : List Char, fwd ≠ [] → firstIdxOf ',' fwd = none →
      GetClientID [] fwd addr = trimSpace fwd) ∧
    (∀ ip port : List Char, ip ≠ [] → ':' ∉ port →
      GetClientID [] [] (ip ++ ':' :: port) = ip) := by
  refine ⟨by decide, ?_, ?_, ?_, ?_⟩
  · intro realIP fwd addr h
    unfold GetClientID
    rw [if_pos h]
  · intro fwd addr i hidx hi
    have hne : fwd ≠ [] := by
      intro he
      subst he
      exact Option.noConfusion hidx
    unfold GetClientID
    rw [if_neg (by simp), if_pos hne, hidx]
    show (if 0 < i then trimSpace (fwd.take i) else trimSpace fwd) = _
    rw [if_pos hi]
  · intro fwd addr hne hidx
    unfold GetClientID
    rw [if_neg (by simp), if_pos hne, hidx]
  · intro ip port hip hport
    unfold GetClientID
    rw [if_neg (by simp), if_neg (by simp)]
    dsimp only
    rw [if_neg (by simp), lastIdxOf_append_colon port hport ip]
    show (if 0 < ip.length then (ip ++ ':' :: port).take ip.length
          else ip ++ ':' :: port) = ip
    rw [if_pos (List.length_pos.mpr hip), List.take_left]

/-- C9 witness: stripping the port of `1.2.3.4:80`. -/
theorem C9_witness :
    ("1.2.3.4".toList ≠ ([] : List Char)) ∧ (':' ∉ "80".toList) ∧
    GetClientID [] [] ("1.2.3.4".toList ++ ':' :: "80".toList) = "1.2.3.4".toList :=
  ⟨by decide, by decide,
    C9_resolution_priority.2.2.2.2 ("1.2.3.4".toList) ("80".toList) (by decide) (by decide)⟩

/-! ### Claim C10 -/

/-- C10 counterexample: with no headers and an empty socket address the
resolver does NOT return the empty string. -/
theorem C10_counterexample : GetClientID [] [] [] ≠ ([] : List Char) := by decide

/-- C10 (amended): with no real-IP header, no forwarded-for header and an
empty socket address, the resolver returns the literal string `unknown`,
not the empty string. -/
theorem C10_empty_addr_unknown : GetClientID [] [] [] = "unknown".toList := by decide

/-! ### Claim C4 -/

/-- C4 counterexample: one call on a never-seen key with
`refillRatePerSecond = 0` and `burstCapacity = 1` admits 0 calls, not
`min 1 1 = 1`, so "exactly min(N, B) of the N calls return true" fails
for every configuration that has rate 0 and B ≥ 1. -/
theorem C4_counterexample :
    ¬ ((((NewRateLimiter 0 1 0 0 0).runAllows
          (List.replicate 1 ("k", 0))).1).count true = min 1 1) := by decide

/-- C4 (amended with `refillRatePerSecond ≠ 0`): N calls on one never-seen
key, serialized by the store's mutex and executed at one instant (no
refill), admit exactly `min N B` of the N calls. -/
theorem C4_min_N_B_admitted (rate : Int) (B : Nat) (ws ci it : Nat)
    (c : String) (t : Nat) (hr : rate ≠ 0) (N : Nat) :
    (((NewRateLimiter rate (B : Int) ws ci it).runAllows
        (List.replicate N (c, t))).1).count true = min N B := by
  rw [fresh_run rate B ws ci it c t hr N, List.count_append]
  simp [List.count_replicate]

/-- C4 witness: rate 3, burst 2, five simultaneous calls admit 2. -/
theorem C4_witness :
    (3 : Int) ≠ 0 ∧
    (((NewRateLimiter 3 ((2 : Nat) : Int) 0 0 0).runAllows
        (List.replicate 5 ("k", 0))).1).count true = min 5 2 :=
  ⟨by decide, C4_min_N_B_admitted 3 2 0 0 0 "k" 0 (by decide) 5⟩

end IPGeo
